import Mathlib

/-!
Verification of the gym front-desk application (`src/gym/app.py`).

The development shallowly embeds the pieces of the application that the
specification speaks about:

* the attendance check-in/check-out reconciler (`checkin`, app.py lines
  302-326), modelled as a pure function from the attendance sheet contents
  (a list of records, in sheet order, header excluded) to the new sheet
  contents and the rendered outcome;
* member-id generation (`generate_member_id`, lines 67-71) and member
  creation (`add_member`, lines 195-227);
* membership renewal (`renew_membership`, lines 229-275);
* the dashboard revenue aggregation over the payments ledger
  (`dashboard`, lines 131-149).

Spreadsheet cells are modelled as strings (the values `gspread`'s
`get_all_records` returns for text cells); a field that may be missing from
a record dictionary is modelled as an `Option String`, with `none` standing
for a key absent from the dictionary (Python `row.get(...) = None`).
-/

set_option maxHeartbeats 1000000

namespace Gym

/-- One attendance row `[member_id, date, in_time, exit_time]`
(`attendance` worksheet; column order from the append at app.py line 322).
`exit_time` is the fourth column, the one `update_cell(i, 4, ...)` writes;
it is an `Option` because the scan reads it with `row.get("exit_time")`,
which yields `None` when the key is absent. -/
structure AttRecord where
  member_id : String
  date : String
  in_time : String
  exit_time : Option String
deriving DecidableEq, Repr

/-- The three outcomes the check-in route can render
(app.py lines 313, 317, 323). -/
inductive Outcome where
  | entryMarked
  | exitMarked
  | alreadyComplete
deriving DecidableEq, Repr

/-- The human-readable message rendered for each outcome
(the `message=` arguments at app.py lines 314, 318, 324). -/
def Outcome.message : Outcome → String
  | .entryMarked => "Entry Marked"
  | .exitMarked => "Exit Marked"
  | .alreadyComplete => "Already Checked In Today"

/-- The scan condition at app.py line 310:
`row.get("member_id") == member_id and row.get("date") == today`. -/
def matchesKey (mid today : String) (r : AttRecord) : Bool :=
  r.member_id == mid && r.date == today

/-- The open-record test at app.py line 311:
`not row.get("exit_time") or row.get("exit_time") == ""`.
An absent key gives `None` (falsy); a present string is falsy exactly when
it is empty, so the second disjunct is subsumed for strings. -/
def isOpenRec (r : AttRecord) : Bool :=
  match r.exit_time with
  | none => true
  | some s => s == ""

/-- The row appended by `attendance_sheet.append_row([member_id, today,
now_time, ""])` (app.py line 322). -/
def newRec (mid today now : String) : AttRecord :=
  ⟨mid, today, now, some ""⟩

/-- Number of records in the sheet matching `(member_id, today)`. -/
def countKey (mid today : String) (s : List AttRecord) : Nat :=
  s.countP (fun r => matchesKey mid today r)

/-- The check-in reconciler, app.py lines 302-326.  The Python code fetches
all attendance records and scans them in sheet order; the first record
matching `(member_id, today)` decides the branch: open record (empty or
absent `exit_time`) gets its `exit_time` cell overwritten with `now`
(`update_cell(i, 4, now_time)`), a closed record causes no write, and if no
record matches, a fresh row is appended at the end.  `today` and `now` are
the values the route reads from the clock at lines 304-305, passed here as
parameters. -/
def checkin (mid today now : String) : List AttRecord → List AttRecord × Outcome
  | [] => ([newRec mid today now], .entryMarked)
  | r :: rs =>
    if matchesKey mid today r then
      if isOpenRec r then
        ({ r with exit_time := some now } :: rs, .exitMarked)
      else
        (r :: rs, .alreadyComplete)
    else
      let p := checkin mid today now rs
      (r :: p.1, p.2)

/-- Sequential application of `checkin` for a fixed `(member_id, today)`
with the successive clock readings `ts`; returns the final sheet. -/
def checkinSeq (mid today : String) : List String → List AttRecord → List AttRecord
  | [], s => s
  | t :: ts, s => checkinSeq mid today ts (checkin mid today t s).1

/-- Result of the reconciler over a fallible row store: either one of the
three rendered outcomes, or a surfaced store failure.  In the Python code a
failing `gspread` call raises, so the route never renders a success page;
the exception is modelled as the explicit `storeUnavailable` result. -/
inductive CheckinResult where
  | ok (o : Outcome)
  | storeUnavailable
deriving DecidableEq, Repr

/-- `checkin` over a store whose read (`get_all_records`) and write
(`update_cell` / `append_row`) calls may fail, with the failure flags made
explicit.  A raised exception aborts the handler before any rendering, so a
failing call yields `storeUnavailable` and the sheet keeps the state it had
when the call failed (a failed read or failed write writes nothing). -/
def checkinGoF (writeOk : Bool) (mid today now : String) :
    List AttRecord → List AttRecord × CheckinResult
  | [] =>
    if writeOk then ([newRec mid today now], .ok .entryMarked)
    else ([], .storeUnavailable)
  | r :: rs =>
    if matchesKey mid today r then
      if isOpenRec r then
        if writeOk then ({ r with exit_time := some now } :: rs, .ok .exitMarked)
        else (r :: rs, .storeUnavailable)
      else
        (r :: rs, .ok .alreadyComplete)
    else
      let p := checkinGoF writeOk mid today now rs
      (r :: p.1, p.2)

/-- The fallible reconciler: if the initial `get_all_records` fails nothing
has been scanned or written; otherwise the scan runs with the write flag. -/
def checkinF (readOk writeOk : Bool) (mid today now : String)
    (s : List AttRecord) : List AttRecord × CheckinResult :=
  if readOk then checkinGoF writeOk mid today now s
  else (s, .storeUnavailable)

/-! ### Member-id generation (app.py lines 67-71) -/

/-- Decimal digit characters of `n`, most significant first (the rendering
Python's `d` format specifier produces). -/
def decDigits (n : Nat) : List Char :=
  if _h : n < 10 then [Nat.digitChar n]
  else decDigits (n / 10) ++ [Nat.digitChar (n % 10)]
termination_by n
decreasing_by
  exact Nat.div_lt_self (by omega) (by omega)

/-- Python's `f"{n:03d}"`: the decimal rendering of `n`, left-padded with
zeros to width 3. -/
def zfill3 (n : Nat) : String :=
  String.mk (List.replicate (3 - (decDigits n).length) '0' ++ decDigits n)

/-- `generate_member_id` (app.py lines 67-71).  `numRows` is
`len(members_sheet.get_all_values())`, the sheet's total row count,
header row included:

    count = len(rows) - 1 if len(rows) > 0 else 0
    return f"M{count+1:03d}"
-/
def generate_member_id (numRows : Nat) : String :=
  let count := if numRows > 0 then numRows - 1 else 0
  "M" ++ zfill3 (count + 1)

/-- Numeric value of a decimal digit character (inverse of
`Nat.digitChar` on `0..9`); used to state injectivity of id rendering. -/
def charDigitVal (c : Char) : Nat := c.toNat - 48

/-- Value of a digit-character list read in base 10. -/
def digitsVal (l : List Char) : Nat :=
  l.foldl (fun a c => a * 10 + charDigitVal c) 0

/-! ### Members, payments, and the remaining operations -/

/-- One row of the `members` worksheet, column order from the append at
app.py lines 204-212: `[member_id, name, phone, photo, fees, start_date,
end_date]` (the fourth cell is the literal `"-"` placeholder). -/
structure Member where
  member_id : String
  name : String
  phone : String
  photo : String
  fees : String
  start_date : String
  end_date : String
deriving DecidableEq, Repr

/-- One row of the `payments` worksheet:
`[transaction_id, member_id, amount, date, type, notes]` (header appended
at app.py line 40; `ptype` models the `type` column). -/
structure Payment where
  txn_id : String
  member_id : String
  amount : String
  pay_date : String
  ptype : String
  notes : String
deriving DecidableEq, Repr

/-- The spreadsheet-backed state the routes read and write: the three
worksheets of `GymDB`, each as its list of data rows (header excluded),
in sheet order. -/
structure GymState where
  members : List Member
  attendance : List AttRecord
  payments : List Payment
deriving DecidableEq, Repr

/-- The check-in route acting on the whole state: it reads and writes only
the attendance sheet. -/
def checkinState (st : GymState) (mid today now : String) : GymState × Outcome :=
  let p := checkin mid today now st.attendance
  ({ st with attendance := p.1 }, p.2)

/-- `add_member` POST handler (app.py lines 195-227): generate the id from
the members sheet's current row count (data rows plus the header row),
append the member row, append the `"Join"` payment row.  `today` is
`date.today().isoformat()` and `txn` is `generate_txn_id()`, both passed as
parameters; the returned string is the id the route flashes and redirects
with. -/
def add_member (st : GymState) (name phone fees end_date today txn : String) :
    GymState × String :=
  let member_id := generate_member_id (st.members.length + 1)
  ({ st with
      members := st.members ++ [⟨member_id, name, phone, "-", fees, today, end_date⟩],
      payments := st.payments ++ [⟨txn, member_id, fees, today, "Join", "Initial Membership"⟩] },
   member_id)

/-- The member-sheet scan of `renew_membership` (app.py lines 235-244):
walk the rows in sheet order; at the first row whose `member_id` matches,
overwrite its `end_date` (column 7) and `fees` (column 5) cells and stop.
Returns the updated rows and whether a match was found. -/
def updateMembers (mid newEnd newFees : String) : List Member → List Member × Bool
  | [] => ([], false)
  | m :: ms =>
    if m.member_id == mid then
      ({ m with end_date := newEnd, fees := newFees } :: ms, true)
    else
      let p := updateMembers mid newEnd newFees ms
      (m :: p.1, p.2)

/-- `renew_membership` POST handler (app.py lines 229-261): if the scan
finds the member, its cells are updated and a new `"Renewal"` payment row
is appended (`f"Renewed until {new_end_date}"` as notes); otherwise
nothing is written. -/
def renew_membership (st : GymState) (mid newEnd newFees today txn : String) :
    GymState :=
  let p := updateMembers mid newEnd newFees st.members
  if p.2 then
    { st with
        members := p.1,
        payments := st.payments ++
          [⟨txn, mid, newFees, today, "Renewal", "Renewed until " ++ newEnd⟩] }
  else st

/-! ### Dashboard revenue aggregation (app.py lines 131-149) -/

/-- Is `c` one of the characters `0`..`9`? -/
def isDigitChar (c : Char) : Bool := '0' ≤ c && c ≤ '9'

/-- Python's `float(...)` on the `amount` cell, modelled on unsigned
decimal literals: `"12"`, `"12.5"`, `"12."`, `".5"` parse to the exact
rational they denote, anything else (in particular `""` and non-numeric
text) raises, modelled as `none`.  The dashboard catches the raise and
skips the row. -/
def parseAmount (s : String) : Option ℚ :=
  match s.splitOn "." with
  | [a] =>
    if a ≠ "" && a.data.all isDigitChar then some ((digitsVal a.data : ℚ))
    else none
  | [a, b] =>
    if (a ≠ "" || b ≠ "") && a.data.all isDigitChar && b.data.all isDigitChar then
      some ((digitsVal a.data : ℚ) + (digitsVal b.data : ℚ) / (10 : ℚ) ^ b.data.length)
    else none
  | _ => none

/-- What one ledger row adds to `total_revenue` in the dashboard loop
(app.py lines 138-149): rows whose amount does not parse are skipped by
the `except` clause, and a row counts only when `txn_date` is non-empty
(truthy) and the amount is positive. -/
def paymentContribution (p : Payment) : ℚ :=
  match parseAmount p.amount with
  | none => 0
  | some a => if p.pay_date ≠ "" ∧ 0 < a then a else 0

/-- `total_revenue` as computed by the dashboard: the loop accumulates the
per-row contributions over the payments sheet. -/
def total_revenue (ps : List Payment) : ℚ :=
  (ps.map paymentContribution).sum

/-- The `YYYY-MM` bucket of a ledger row: `txn_date[:7]` (app.py line 145). -/
def monthKey (p : Payment) : String := p.pay_date.take 7

/-- `monthly_revenue[ym]` as computed by the dashboard loop: the sum of the
contributions of the rows falling in bucket `ym`. -/
def monthly_revenue (ps : List Payment) (ym : String) : ℚ :=
  (ps.map (fun p => if monthKey p = ym then paymentContribution p else 0)).sum

/-! ### Sequences of member additions -/

/-- The form fields and clock readings of one `add_member` POST. -/
structure AddInput where
  name : String
  phone : String
  fees : String
  end_date : String
  today : String
  txn : String
deriving DecidableEq, Repr

/-- Run a sequence of `add_member` operations, collecting the generated
member ids in order. -/
def addMembersRun : GymState → List AddInput → GymState × List String
  | st, [] => (st, [])
  | st, a :: as =>
    let p := add_member st a.name a.phone a.fees a.end_date a.today a.txn
    let q := addMembersRun p.1 as
    (q.1, p.2 :: q.2)

/-! ### Helper lemmas about the reconciler scan -/

theorem countKey_cons (mid today : String) (r : AttRecord) (s : List AttRecord) :
    countKey mid today (r :: s) =
      countKey mid today s + if matchesKey mid today r then 1 else 0 := by
  simp [countKey, List.countP_cons]

theorem countKey_cons_zero {mid today : String} {r : AttRecord} {s : List AttRecord}
    (h : countKey mid today (r :: s) = 0) :
    matchesKey mid today r = false ∧ countKey mid today s = 0 := by
  have hc := countKey_cons mid today r s
  by_cases hm : matchesKey mid today r
  · rw [h] at hc
    simp [hm] at hc
  · exact ⟨by simp [hm], by rw [h] at hc; simpa [hm] using hc.symm⟩

/-- A sheet with no record for the key is left alone by the scan: the loop
falls through and appends a fresh row at the end. -/
theorem checkin_no_match (mid today now : String) :
    ∀ s : List AttRecord, countKey mid today s = 0 →
      checkin mid today now s = (s ++ [newRec mid today now], .entryMarked)
  | [], _ => by simp [checkin]
  | r :: rs, h => by
    obtain ⟨hr, hs⟩ := countKey_cons_zero h
    simp [checkin, hr, checkin_no_match mid today now rs hs]

/-- If the first matching record is open, the scan stops there and only its
`exit_time` cell is overwritten. -/
theorem checkin_first_open (mid today now : String) (r : AttRecord) (b : List AttRecord)
    (hr : matchesKey mid today r = true) (ho : isOpenRec r = true) :
    ∀ a : List AttRecord, countKey mid today a = 0 →
      checkin mid today now (a ++ r :: b) =
        (a ++ { r with exit_time := some now } :: b, .exitMarked)
  | [], _ => by simp [checkin, hr, ho]
  | x :: xs, ha => by
    obtain ⟨hx, hxs⟩ := countKey_cons_zero ha
    simp [checkin, hx, checkin_first_open mid today now r b hr ho xs hxs]

/-- If the first matching record is closed, the scan stops there and writes
nothing. -/
theorem checkin_first_closed (mid today now : String) (r : AttRecord) (b : List AttRecord)
    (hr : matchesKey mid today r = true) (ho : isOpenRec r = false) :
    ∀ a : List AttRecord, countKey mid today a = 0 →
      checkin mid today now (a ++ r :: b) = (a ++ r :: b, .alreadyComplete)
  | [], _ => by simp [checkin, hr, ho]
  | x :: xs, ha => by
    obtain ⟨hx, hxs⟩ := countKey_cons_zero ha
    simp [checkin, hx, checkin_first_closed mid today now r b hr ho xs hxs]

theorem matchesKey_self (mid today in_t : String) (e : Option String) :
    matchesKey mid today ⟨mid, today, in_t, e⟩ = true := by
  simp [matchesKey]

theorem filter_key_nil {mid today : String} {s : List AttRecord}
    (h : countKey mid today s = 0) :
    s.filter (fun r => matchesKey mid today r) = [] := by
  rw [List.filter_eq_nil_iff]
  intro r hr
  have := List.countP_eq_zero.mp h r hr
  simpa using this

/-- Once the key's unique record is closed (`exit_time = some e`, `e ≠ ""`),
any further sequence of calls leaves the sheet unchanged. -/
theorem checkinSeq_closed (mid today : String) {e : String} (he : e ≠ "")
    (a : List AttRecord) (ha : countKey mid today a = 0) (tin : String) :
    ∀ ts : List String,
      checkinSeq mid today ts (a ++ [⟨mid, today, tin, some e⟩]) =
        a ++ [⟨mid, today, tin, some e⟩]
  | [] => by simp [checkinSeq]
  | t :: ts => by
    have hc := checkin_first_closed mid today t ⟨mid, today, tin, some e⟩ []
      (matchesKey_self mid today tin (some e)) (by simp [isOpenRec, he]) a ha
    simp [checkinSeq, hc, checkinSeq_closed mid today he a ha tin ts]

/-- From a sheet whose only record for the key is open, a sequence of calls
with non-empty clock readings closes it with the first reading and then
leaves it alone. -/
theorem checkinSeq_from_open (mid today : String) (a : List AttRecord)
    (ha : countKey mid today a = 0) (tin : String) :
    ∀ ts : List String, (∀ t ∈ ts, t ≠ "") →
      checkinSeq mid today ts (a ++ [⟨mid, today, tin, some ""⟩]) =
        (match ts with
          | [] => a ++ [⟨mid, today, tin, some ""⟩]
          | t :: _ => a ++ [⟨mid, today, tin, some t⟩])
  | [], _ => by simp [checkinSeq]
  | t :: ts, hts => by
    have hone := checkin_first_open mid today t ⟨mid, today, tin, some ""⟩ []
      (matchesKey_self mid today tin (some "")) (by simp [isOpenRec]) a ha
    have ht : t ≠ "" := hts t (by simp)
    simp only [checkinSeq, hone]
    exact checkinSeq_closed mid today ht a ha tin ts

/-- A record that does not match the key keeps its position and its value
across a `checkin` call. -/
theorem checkin_keeps_nonmatching (mid today now : String) :
    ∀ (s : List AttRecord) (j : Nat) (h : j < s.length),
      matchesKey mid today s[j] = false →
      ((checkin mid today now s).1)[j]? = some s[j]
  | [], j, h, _ => by simp at h
  | r :: rs, 0, h, hm => by
    have hr : matchesKey mid today r = false := by simpa using hm
    simp [checkin, hr]
  | r :: rs, j+1, h, hm => by
    have hj : j < rs.length := by simpa using h
    have hm2 : matchesKey mid today rs[j] = false := by simpa using hm
    by_cases hr : matchesKey mid today r
    · by_cases ho : isOpenRec r
      · simp [checkin, hr, ho, List.getElem?_eq_getElem hj]
      · simp [checkin, hr, ho, List.getElem?_eq_getElem hj]
    · simp [checkin, hr, checkin_keeps_nonmatching mid today now rs j hj hm2]

/-- With the write call failing, the scan either surfaces the failure or
(when no write was attempted) reports the duplicate visit; the sheet is
unchanged either way. -/
theorem checkinGoF_write_fail (mid today now : String) :
    ∀ s : List AttRecord,
      (checkinGoF false mid today now s).1 = s ∧
      ((checkinGoF false mid today now s).2 = .storeUnavailable ∨
        (checkinGoF false mid today now s).2 = .ok .alreadyComplete)
  | [] => by simp [checkinGoF]
  | r :: rs => by
    by_cases hr : matchesKey mid today r
    · by_cases ho : isOpenRec r
      · simp [checkinGoF, hr, ho]
      · simp [checkinGoF, hr, ho]
    · have ih := checkinGoF_write_fail mid today now rs
      refine ⟨?_, ?_⟩
      · simp [checkinGoF, hr, ih.1]
      · simpa [checkinGoF, hr] using ih.2

/-! ### Helper lemmas about decimal rendering -/

theorem charDigitVal_digitChar : ∀ d : Fin 10, charDigitVal (Nat.digitChar d.val) = d.val := by
  decide

theorem digitsVal_append_digit (l : List Char) (c : Char) :
    digitsVal (l ++ [c]) = digitsVal l * 10 + charDigitVal c := by
  simp [digitsVal, List.foldl_append]

theorem digitsVal_decDigits (n : Nat) : digitsVal (decDigits n) = n := by
  induction n using Nat.strong_induction_on with
  | _ n ih =>
    by_cases h : n < 10
    · rw [decDigits]
      simp only [h, dite_true]
      have := charDigitVal_digitChar ⟨n, h⟩
      simp [digitsVal]
      exact this
    · rw [decDigits]
      simp only [h, dite_false]
      rw [digitsVal_append_digit, ih (n / 10) (Nat.div_lt_self (by omega) (by omega))]
      have h10 : n % 10 < 10 := Nat.mod_lt _ (by omega)
      have hch : charDigitVal (Nat.digitChar (n % 10)) = n % 10 := by
        simpa using charDigitVal_digitChar ⟨n % 10, h10⟩
      rw [hch]
      omega

theorem digitsVal_cons_zero (l : List Char) :
    digitsVal ('0' :: l) = digitsVal l := by
  have h0 : charDigitVal '0' = 0 := by decide
  simp [digitsVal, h0]

theorem digitsVal_leading_zeros (l : List Char) :
    ∀ k : Nat, digitsVal (List.replicate k '0' ++ l) = digitsVal l
  | 0 => by simp
  | k + 1 => by
    rw [List.replicate_succ, List.cons_append, digitsVal_cons_zero]
    exact digitsVal_leading_zeros l k

theorem digitsVal_zfill3 (n : Nat) : digitsVal (zfill3 n).data = n := by
  show digitsVal (List.replicate (3 - (decDigits n).length) '0' ++ decDigits n) = n
  rw [digitsVal_leading_zeros, digitsVal_decDigits]

theorem member_id_render_inj {m n : Nat}
    (h : "M" ++ zfill3 m = "M" ++ zfill3 n) : m = n := by
  have hd : 'M' :: (zfill3 m).data = 'M' :: (zfill3 n).data := congrArg String.data h
  have hd2 : (zfill3 m).data = (zfill3 n).data := by
    injection hd
  have := congrArg digitsVal hd2
  rwa [digitsVal_zfill3, digitsVal_zfill3] at this

theorem add_member_len (st : GymState) (name phone fees end_d today txn : String) :
    ((add_member st name phone fees end_d today txn).1).members.length =
      st.members.length + 1 := by
  simp [add_member]

theorem add_member_id (st : GymState) (name phone fees end_d today txn : String) :
    (add_member st name phone fees end_d today txn).2 =
      "M" ++ zfill3 (st.members.length + 1) := by
  simp [add_member, generate_member_id]

/-- The ids a run of `add_member` operations generates are the successive
renderings of the member count, starting just above the count the sheet
had when the run began. -/
theorem addMembersRun_ids :
    ∀ (inputs : List AddInput) (st : GymState),
      (addMembersRun st inputs).2 =
        (List.range inputs.length).map (fun i => "M" ++ zfill3 (st.members.length + i + 1)) ∧
      ((addMembersRun st inputs).1).members.length = st.members.length + inputs.length
  | [], st => by simp [addMembersRun]
  | a :: as, st => by
    have ih := addMembersRun_ids as (add_member st a.name a.phone a.fees a.end_date a.today a.txn).1
    have hlen := add_member_len st a.name a.phone a.fees a.end_date a.today a.txn
    refine ⟨?_, ?_⟩
    · have hunf : (addMembersRun st (a :: as)).2 =
          (add_member st a.name a.phone a.fees a.end_date a.today a.txn).2 ::
            (addMembersRun (add_member st a.name a.phone a.fees a.end_date a.today a.txn).1 as).2 :=
        rfl
      rw [hunf, add_member_id, ih.1, hlen, List.length_cons, List.range_succ_eq_map,
        List.map_cons, List.map_map]
      congr 1
      apply List.map_congr_left
      intro i _
      simp only [Function.comp_apply]
      congr 2
      omega
    · have hunf2 : (addMembersRun st (a :: as)).1 =
          (addMembersRun (add_member st a.name a.phone a.fees a.end_date a.today a.txn).1 as).1 :=
        rfl
      rw [hunf2, ih.2, hlen, List.length_cons]
      omega

/-! ### The claims -/

/-- C2: when no record in the sheet matches `(member_id, today)`, the
reconciler appends exactly one new record `[member_id, today, now, ""]`,
leaves every pre-existing record unchanged, and reports `ENTRY_MARKED`. -/
theorem checkin_new_visit (mid today now : String) (s : List AttRecord)
    (h : countKey mid today s = 0) :
    checkin mid today now s = (s ++ [⟨mid, today, now, some ""⟩], .entryMarked) :=
  checkin_no_match mid today now s h

theorem checkin_new_visit_witness :
    countKey "M007" "2024-03-01" [] = 0 ∧
      checkin "M007" "2024-03-01" "09:00" [] =
        ([⟨"M007", "2024-03-01", "09:00", some ""⟩], .entryMarked) :=
  ⟨by decide, checkin_new_visit "M007" "2024-03-01" "09:00" [] (by decide)⟩

/-- C3: when the first record in sheet order matching `(member_id, today)`
has an empty `out_time`, the reconciler overwrites exactly that record's
`exit_time` cell with `now`, keeps its `in_time` and every other record's
every field, appends nothing, and reports `EXIT_MARKED`. -/
theorem checkin_marks_exit (mid today now : String) (a : List AttRecord) (r : AttRecord)
    (b : List AttRecord) (ha : countKey mid today a = 0)
    (hr : matchesKey mid today r = true) (ho : isOpenRec r = true) :
    checkin mid today now (a ++ r :: b) =
      (a ++ ⟨r.member_id, r.date, r.in_time, some now⟩ :: b, .exitMarked) :=
  checkin_first_open mid today now r b hr ho a ha

theorem checkin_marks_exit_witness :
    countKey "M007" "2024-03-01" [] = 0 ∧
      matchesKey "M007" "2024-03-01" ⟨"M007", "2024-03-01", "09:00", some ""⟩ = true ∧
      isOpenRec ⟨"M007", "2024-03-01", "09:00", some ""⟩ = true ∧
      checkin "M007" "2024-03-01" "18:30" [⟨"M007", "2024-03-01", "09:00", some ""⟩] =
        ([⟨"M007", "2024-03-01", "09:00", some "18:30"⟩], .exitMarked) :=
  ⟨by decide, by decide, by decide,
    checkin_marks_exit "M007" "2024-03-01" "18:30" [] ⟨"M007", "2024-03-01", "09:00", some ""⟩
      [] (by decide) (by decide) (by decide)⟩

/-- C4: when the first matching record has a non-empty `out_time`, the
reconciler writes nothing (the sheet is returned unchanged) and reports
`ALREADY_COMPLETE`; consequently, after the two calls that create and close
the day's record, every further call with the same key reports
`ALREADY_COMPLETE` and leaves the sheet unchanged. -/
theorem checkin_already_complete (mid today : String) :
    (∀ (now : String) (a : List AttRecord) (r : AttRecord) (b : List AttRecord),
        countKey mid today a = 0 → matchesKey mid today r = true → isOpenRec r = false →
        checkin mid today now (a ++ r :: b) = (a ++ r :: b, .alreadyComplete)) ∧
    (∀ (s0 : List AttRecord) (t1 t2 : String), countKey mid today s0 = 0 → t2 ≠ "" →
        ∀ t3 : String,
          checkin mid today t3 (checkinSeq mid today [t1, t2] s0) =
            (checkinSeq mid today [t1, t2] s0, .alreadyComplete)) := by
  constructor
  · intro now a r b ha hr ho
    exact checkin_first_closed mid today now r b hr ho a ha
  · intro s0 t1 t2 hs0 ht2 t3
    have h1 := checkin_no_match mid today t1 s0 hs0
    have h2 := checkin_first_open mid today t2 ⟨mid, today, t1, some ""⟩ []
      (matchesKey_self mid today t1 (some "")) (by simp [isOpenRec]) s0 hs0
    have hseq : checkinSeq mid today [t1, t2] s0 = s0 ++ [⟨mid, today, t1, some t2⟩] := by
      simp [checkinSeq, h1, newRec, h2]
    rw [hseq]
    exact checkin_first_closed mid today t3 ⟨mid, today, t1, some t2⟩ []
      (matchesKey_self mid today t1 (some t2)) (by simp [isOpenRec, ht2]) s0 hs0

theorem checkin_already_complete_witness :
    countKey "M007" "2024-03-01" [] = 0 ∧
      matchesKey "M007" "2024-03-01" ⟨"M007", "2024-03-01", "09:00", some "18:30"⟩ = true ∧
      isOpenRec ⟨"M007", "2024-03-01", "09:00", some "18:30"⟩ = false ∧
      checkin "M007" "2024-03-01" "19:00" [⟨"M007", "2024-03-01", "09:00", some "18:30"⟩] =
        ([⟨"M007", "2024-03-01", "09:00", some "18:30"⟩], .alreadyComplete) ∧
      checkin "M007" "2024-03-01" "19:00"
          (checkinSeq "M007" "2024-03-01" ["09:00", "18:30"] []) =
        (checkinSeq "M007" "2024-03-01" ["09:00", "18:30"] [], .alreadyComplete) :=
  ⟨by decide, by decide, by decide,
    (checkin_already_complete "M007" "2024-03-01").1 "19:00" []
      ⟨"M007", "2024-03-01", "09:00", some "18:30"⟩ [] (by decide) (by decide) (by decide),
    (checkin_already_complete "M007" "2024-03-01").2 [] "09:00" "18:30" (by decide)
      (by decide) "19:00"⟩

/-- C5: when the sheet holds two or more records for the key, the
reconciler acts only on the first one in sheet order: the outcome and the
single optional write are decided by that record's `exit_time`, the later
matching records are untouched, and no record is appended. -/
theorem checkin_first_match_wins (mid today now : String) (a : List AttRecord)
    (r : AttRecord) (b : List AttRecord) (ha : countKey mid today a = 0)
    (hr : matchesKey mid today r = true) (_hb : 1 ≤ countKey mid today b) :
    checkin mid today now (a ++ r :: b) =
      (if isOpenRec r then a ++ ⟨r.member_id, r.date, r.in_time, some now⟩ :: b
        else a ++ r :: b,
       if isOpenRec r then Outcome.exitMarked else Outcome.alreadyComplete) := by
  by_cases ho : isOpenRec r
  · rw [if_pos ho, if_pos ho]
    exact checkin_first_open mid today now r b hr ho a ha
  · have ho2 : isOpenRec r = false := by simpa using ho
    rw [if_neg ho, if_neg ho]
    exact checkin_first_closed mid today now r b hr ho2 a ha

theorem checkin_first_match_wins_witness :
    countKey "M009" "2024-03-01" [] = 0 ∧
      matchesKey "M009" "2024-03-01" ⟨"M009", "2024-03-01", "09:00", some ""⟩ = true ∧
      1 ≤ countKey "M009" "2024-03-01" [⟨"M009", "2024-03-01", "10:00", some ""⟩] ∧
      checkin "M009" "2024-03-01" "19:00"
          [⟨"M009", "2024-03-01", "09:00", some ""⟩,
            ⟨"M009", "2024-03-01", "10:00", some ""⟩] =
        (if isOpenRec ⟨"M009", "2024-03-01", "09:00", some ""⟩ then
            [⟨"M009", "2024-03-01", "09:00", some "19:00"⟩,
              ⟨"M009", "2024-03-01", "10:00", some ""⟩]
          else
            [⟨"M009", "2024-03-01", "09:00", some ""⟩,
              ⟨"M009", "2024-03-01", "10:00", some ""⟩],
         if isOpenRec ⟨"M009", "2024-03-01", "09:00", some ""⟩ then Outcome.exitMarked
          else Outcome.alreadyComplete) :=
  ⟨by decide, by decide, by decide,
    checkin_first_match_wins "M009" "2024-03-01" "19:00" []
      ⟨"M009", "2024-03-01", "09:00", some ""⟩
      [⟨"M009", "2024-03-01", "10:00", some ""⟩] (by decide) (by decide) (by decide)⟩

/-- C10: for the matched record, the reconciler takes the `EXIT_MARKED`
branch exactly when its `exit_time` is absent or the empty string; any
other value (a whitespace-only string included) yields the
`ALREADY_COMPLETE` branch. -/
theorem exit_branch_condition (mid today now : String) (a : List AttRecord)
    (r : AttRecord) (b : List AttRecord) (ha : countKey mid today a = 0)
    (hr : matchesKey mid today r = true) :
    ((checkin mid today now (a ++ r :: b)).2 = .exitMarked ↔
      (r.exit_time = none ∨ r.exit_time = some "")) ∧
    ((checkin mid today now (a ++ r :: b)).2 = .alreadyComplete ↔
      ¬(r.exit_time = none ∨ r.exit_time = some "")) := by
  have hopen : isOpenRec r = true ↔ (r.exit_time = none ∨ r.exit_time = some "") := by
    cases he : r.exit_time with
    | none => simp [isOpenRec, he]
    | some s => simp [isOpenRec, he]
  by_cases ho : isOpenRec r
  · rw [checkin_first_open mid today now r b hr ho a ha]
    simp [← hopen, ho]
  · have ho2 : isOpenRec r = false := by simpa using ho
    rw [checkin_first_closed mid today now r b hr ho2 a ha]
    simp [← hopen, ho2]

theorem exit_branch_condition_witness :
    countKey "M008" "2024-03-01" [] = 0 ∧
      matchesKey "M008" "2024-03-01" ⟨"M008", "2024-03-01", "09:00", some " "⟩ = true ∧
      ((checkin "M008" "2024-03-01" "19:00"
          [⟨"M008", "2024-03-01", "09:00", some " "⟩]).2 = .exitMarked ↔
        ((some " " : Option String) = none ∨ (some " " : Option String) = some "")) :=
  ⟨by decide, by decide,
    (exit_branch_condition "M008" "2024-03-01" "19:00" []
      ⟨"M008", "2024-03-01", "09:00", some " "⟩ [] (by decide) (by decide)).1⟩

/-- C1: starting from a sheet with no record for `(member_id, today)`, a
sequence of `N ≥ 1` calls with that key (and non-empty clock readings)
leaves exactly one record for the key in the sheet, and that record's
`out_time` is non-empty exactly when `N ≥ 2`. -/
theorem at_most_one_record (mid today : String) (ts : List String) (s0 : List AttRecord)
    (hne : ts ≠ []) (hts : ∀ t ∈ ts, t ≠ "") (h0 : countKey mid today s0 = 0) :
    ∃ r : AttRecord,
      (checkinSeq mid today ts s0).filter (fun x => matchesKey mid today x) = [r] ∧
      (isOpenRec r = false ↔ 2 ≤ ts.length) := by
  cases ts with
  | nil => exact absurd rfl hne
  | cons t1 ts2 =>
    have h1 := checkin_no_match mid today t1 s0 h0
    have hts2 : ∀ t ∈ ts2, t ≠ "" := fun t ht => hts t (by simp [ht])
    have hseq := checkinSeq_from_open mid today s0 h0 t1 ts2 hts2
    have hstep : checkinSeq mid today (t1 :: ts2) s0 =
        checkinSeq mid today ts2 (s0 ++ [⟨mid, today, t1, some ""⟩]) := by
      simp [checkinSeq, h1, newRec]
    cases ts2 with
    | nil =>
      refine ⟨⟨mid, today, t1, some ""⟩, ?_, ?_⟩
      · rw [hstep]
        simp [checkinSeq, List.filter_append, filter_key_nil h0,
          matchesKey_self mid today t1 (some "")]
      · simp [isOpenRec]
    | cons t2 ts3 =>
      refine ⟨⟨mid, today, t1, some t2⟩, ?_, ?_⟩
      · rw [hstep, hseq]
        simp [List.filter_append, filter_key_nil h0,
          matchesKey_self mid today t1 (some t2)]
      · have ht2 : t2 ≠ "" := hts t2 (by simp)
        simp [isOpenRec, ht2, List.length_cons]

theorem at_most_one_record_witness :
    (["09:00", "18:30", "19:00"] : List String) ≠ [] ∧
      countKey "M007" "2024-03-01" [] = 0 ∧
      ∃ r : AttRecord,
        (checkinSeq "M007" "2024-03-01" ["09:00", "18:30", "19:00"] []).filter
            (fun x => matchesKey "M007" "2024-03-01" x) = [r] ∧
        (isOpenRec r = false ↔ 2 ≤ (["09:00", "18:30", "19:00"] : List String).length) :=
  ⟨by decide, by decide,
    at_most_one_record "M007" "2024-03-01" ["09:00", "18:30", "19:00"] []
      (by decide) (by decide) (by decide)⟩

/-- C6: a check-in call reads and writes only the attendance records of its
own `(member_id, today)` key: the members sheet and the payments sheet are
untouched, and every attendance record whose member or date differs keeps
its position and value. -/
theorem checkin_frame (st : GymState) (mid today now : String) :
    ((checkinState st mid today now).1).members = st.members ∧
    ((checkinState st mid today now).1).payments = st.payments ∧
    ∀ (j : Nat) (h : j < st.attendance.length),
      matchesKey mid today st.attendance[j] = false →
      (((checkinState st mid today now).1).attendance)[j]? = some st.attendance[j] := by
  refine ⟨rfl, rfl, ?_⟩
  intro j h hm
  exact checkin_keeps_nonmatching mid today now st.attendance j h hm

theorem checkin_frame_witness :
    ((checkinState ⟨[], [⟨"M002", "2024-01-01", "08:00", some ""⟩], []⟩
        "M001" "2024-01-01" "09:00").1).members = [] ∧
      (((checkinState ⟨[], [⟨"M002", "2024-01-01", "08:00", some ""⟩], []⟩
          "M001" "2024-01-01" "09:00").1).attendance)[0]? =
        some ⟨"M002", "2024-01-01", "08:00", some ""⟩ :=
  ⟨(checkin_frame ⟨[], [⟨"M002", "2024-01-01", "08:00", some ""⟩], []⟩
      "M001" "2024-01-01" "09:00").1,
    (checkin_frame ⟨[], [⟨"M002", "2024-01-01", "08:00", some ""⟩], []⟩
      "M001" "2024-01-01" "09:00").2.2 0 (by decide) (by decide)⟩

/-- C7: a failing row store surfaces as the distinguishable
`storeUnavailable` result and never as one of the three success outcomes:
a failed read returns the sheet unmutated with the error, and with the
write call failing the operation either surfaces the error (sheet
unmutated) or had no write to perform and reports the duplicate visit. -/
theorem checkin_store_failure (w : Bool) (mid today now : String) (s : List AttRecord) :
    checkinF false w mid today now s = (s, .storeUnavailable) ∧
    (checkinF true false mid today now s).1 = s ∧
    ((checkinF true false mid today now s).2 = .storeUnavailable ∨
      (checkinF true false mid today now s).2 = .ok .alreadyComplete) := by
  refine ⟨by simp [checkinF], ?_, ?_⟩
  · simpa [checkinF] using (checkinGoF_write_fail mid today now s).1
  · simpa [checkinF] using (checkinGoF_write_fail mid today now s).2

/-- C8: starting from an empty members sheet, the `N`th `add_member` call
generates the id `"M"` followed by the zero-padded decimal rendering of
`N`, and the ids of any run are pairwise distinct. -/
theorem member_ids_sequential (att : List AttRecord) (pays : List Payment)
    (inputs : List AddInput) :
    (addMembersRun ⟨[], att, pays⟩ inputs).2 =
      (List.range inputs.length).map (fun i => "M" ++ zfill3 (i + 1)) ∧
    ((addMembersRun ⟨[], att, pays⟩ inputs).2).Nodup := by
  have h := addMembersRun_ids inputs ⟨[], att, pays⟩
  have hlen : (GymState.mk [] att pays).members.length = 0 := rfl
  rw [hlen] at h
  have hids : (addMembersRun ⟨[], att, pays⟩ inputs).2 =
      (List.range inputs.length).map (fun i => "M" ++ zfill3 (i + 1)) := by
    rw [h.1]
    apply List.map_congr_left
    intro i _
    congr 2
    omega
  refine ⟨hids, ?_⟩
  rw [hids]
  exact (List.nodup_range _).map
    (fun x y hxy => by
      have := member_id_render_inj hxy
      omega)

/-- C9: the payments ledger is append-only — joining appends exactly one
`"Join"` row, renewal appends exactly one `"Renewal"` row when the member
exists and nothing otherwise, check-in never touches the ledger — and the
total and per-month revenue figures are sums over the ledger's rows. -/
theorem payments_append_only (st : GymState)
    (name phone fees end_d atoday atxn : String)
    (mid newEnd newFees rtoday rtxn : String)
    (cmid ctoday cnow : String)
    (ps : List Payment) (p : Payment) (ym : String) :
    ((add_member st name phone fees end_d atoday atxn).1).payments =
      st.payments ++
        [⟨atxn, generate_member_id (st.members.length + 1), fees, atoday, "Join",
          "Initial Membership"⟩] ∧
    (renew_membership st mid newEnd newFees rtoday rtxn).payments =
      st.payments ++
        (if (updateMembers mid newEnd newFees st.members).2 then
          [⟨rtxn, mid, newFees, rtoday, "Renewal", "Renewed until " ++ newEnd⟩]
        else []) ∧
    ((checkinState st cmid ctoday cnow).1).payments = st.payments ∧
    total_revenue (ps ++ [p]) = total_revenue ps + paymentContribution p ∧
    monthly_revenue (ps ++ [p]) ym =
      monthly_revenue ps ym + (if monthKey p = ym then paymentContribution p else 0) := by
  refine ⟨rfl, ?_, rfl, ?_, ?_⟩
  · by_cases hf : (updateMembers mid newEnd newFees st.members).2
    · simp [renew_membership, hf]
    · simp [renew_membership, hf]
  · simp [total_revenue]
  · simp [monthly_revenue]

end Gym
